import Mathlib

/-!
Shallow embedding of `miload.py` (the MiLoad load generator), used to check
the natural-language specification's claims about the load-generation engine.

Modelling conventions:
* Wall-clock instants and durations are rationals (`ℚ`); the Python float
  constants are modelled exactly: `0.04 = 1/25`, `0.3 = 3/10`,
  `0.009 = 9/1000`.
* Network nondeterminism is supplied by oracles: each request has a
  wall-clock cost `reqTime` and an outcome (connection error, uncaught
  exception, or success with a server-reported latency and a row count).
* `random.randint(0, len(urls)-1)` is modelled by an oracle index reduced
  mod the pool size.
* A Python dict of result fields is a record of `Option` fields; the empty
  dict is the record with every field `none`.  `issue_request` mutates the
  dict passed to it only on success; this is modelled by returning
  `Option RequestRecord` (`none` = dict left untouched), applied at each
  call site by `storeResult`.
* An exception that the code does not catch is an `Except.error`; worker
  functions record it as a `raised` flag (the Python thread dies, keeping
  the results accumulated so far, and produces no return value).
-/

/-- One row of result metadata, as stored by `issue_request` into a Python
dict.  The empty dict (all fields `none`) is an aborted request. -/
structure RequestRecord where
  start : Option ℚ
  end_ : Option ℚ
  url : Option String
  ret_code : Option Unit
  elapsed : Option ℚ
  num_matches : Option ℕ
deriving DecidableEq, Repr

/-- The empty Python dict `{}`: the state of a result slot before
`issue_request` stores anything, and the final state of an aborted request. -/
def emptyRecord : RequestRecord :=
  { start := none, end_ := none, url := none, ret_code := none,
    elapsed := none, num_matches := none }

/-- Outcome of one HTTP GET, supplied by the oracle:
`connError` is `requests.exceptions.ConnectionError` (refused / reset /
connect-timeout), `otherExn` is any exception the `try` block does not
catch, `success` carries the server-reported latency
(`response.elapsed.total_seconds()`) and the row count
(`len(resp_json['rows'])`). -/
inductive ReqOutcome where
  | connError
  | otherExn
  | success (respElapsed : ℚ) (rows : ℕ)
deriving DecidableEq, Repr

/-- What one call to `issue_request` does: the characters printed to the
console and the dict mutation (`none` = the result dict is left untouched,
as happens on the early `return` of the abort paths). -/
structure ExecOutput where
  printed : String
  record : Option RequestRecord
deriving DecidableEq, Repr

/-- The dict contents stored on the success path of `issue_request`:
`result['start']`, `result['end']`, `result['url'] = url[38:]`,
`result['ret_code'] = response`, `result['elapsed']`,
`result['num_matches']`. -/
def successRecord (url : String) (start reqTime respElapsed : ℚ) (rows : ℕ) :
    RequestRecord :=
  { start := some start
  , end_ := some (start + reqTime)
  , url := some (url.drop 38)
  , ret_code := some ()
  , elapsed := some respElapsed
  , num_matches := some rows }

/-- `issue_request(session, url, result, i)` of miload.py.  `session` is
`None` or a `requests.Session`; `start` is the wall clock at entry and
`reqTime` the wall-clock cost of the GET.  On `ConnectionError` it prints
`'A'` (no session) or `'As'` (session) and returns early without touching
the result dict; exceptions other than `ConnectionError` are not caught. -/
def issue_request (session : Option Unit) (url : String)
    (start reqTime : ℚ) (outcome : ReqOutcome) : Except String ExecOutput :=
  match session with
  | none =>
    match outcome with
    | .connError => .ok { printed := "A", record := none }
    | .otherExn => .error "uncaught exception"
    | .success respElapsed rows =>
        .ok { printed := ""
            , record := some (successRecord url start reqTime respElapsed rows) }
  | some _ =>
    match outcome with
    | .connError => .ok { printed := "As", record := none }
    | .otherExn => .error "uncaught exception"
    | .success respElapsed rows =>
        .ok { printed := ""
            , record := some (successRecord url start reqTime respElapsed rows) }

/-- Applies the dict mutation of `issue_request` to the dict that was passed
in: `none` leaves the slot as it was. -/
def storeResult (slot : RequestRecord) (upd : Option RequestRecord) :
    RequestRecord :=
  upd.getD slot

/-- A URL from the address pool, split the way `one_user`'s regular
expression `num=(?P<num>\w+)&street=(?P<street>[A-Za-z0-9 ]+)` sees it.
`base` is `'https://address.mivoter.org/index.php?max=5&'` (44 characters)
for URLs built by `addr_to_url`. -/
structure UrlParts where
  base : String
  num : String
  street : String
deriving DecidableEq, Repr

/-- The full URL string for a pool entry. -/
def UrlParts.toUrl (u : UrlParts) : String :=
  u.base ++ "num=" ++ u.num ++ "&street=" ++ u.street

/-- `urls[random.randint(0, len(urls)-1)]`, with the random draw supplied by
the oracle index `k`. -/
def pickUrl (urls : List UrlParts) (k : ℕ) : String :=
  (urls.getD (k % urls.length) ⟨"", "", ""⟩).toUrl

/-- The nondeterminism of one loop iteration that issues one request. -/
structure IterOracle where
  urlIdx : ℕ
  reqTime : ℚ
  outcome : ReqOutcome

/-- State returned by one soak worker (`one_tub`): the records it appended
to its private buffer, the wall clock when it stopped, the sleeps it
actually executed via `time.sleep`, and whether an uncaught exception killed
the thread. -/
structure TubRun where
  records : List RequestRecord
  finish : ℚ
  sleeps : List ℚ
  raised : Bool
deriving DecidableEq, Repr

/-- The loop body of `one_tub`.  `fuel` is the remaining part of
`range(1000)`, `i` the current index, `now` the wall clock (the worker's
`begin` is time 0), `acc` the results list built so far and `sl` the sleeps
executed so far.  Per iteration: `results.append({})`, pick a random URL,
`issue_request`, then `if delay < 0: continue` (note: this skips the
duration check as well as the sleep), `if time.time() - begin > duration:
break`, `time.sleep(delay)`. -/
def one_tubAux (urls : List UrlParts) (delay duration : ℚ)
    (oracle : ℕ → IterOracle) (session : Option Unit) :
    ℕ → ℕ → ℚ → List RequestRecord → List ℚ → TubRun
  | 0, _, now, acc, sl => ⟨acc, now, sl, false⟩
  | fuel + 1, i, now, acc, sl =>
    let o := oracle i
    let url := pickUrl urls o.urlIdx
    match issue_request session url now o.reqTime o.outcome with
    | .error _ => ⟨acc ++ [emptyRecord], now + o.reqTime, sl, true⟩
    | .ok out =>
      let stored := storeResult emptyRecord out.record
      let now1 := now + o.reqTime
      if delay < 0 then
        one_tubAux urls delay duration oracle session fuel (i + 1) now1
          (acc ++ [stored]) sl
      else if now1 > duration then
        ⟨acc ++ [stored], now1, sl, false⟩
      else
        one_tubAux urls delay duration oracle session fuel (i + 1)
          (now1 + delay) (acc ++ [stored]) (sl ++ [delay])

/-- `one_tub(urls, delay, results, duration, use_session)` of miload.py: the
soak-mode worker loop, `for i in range(1000)`. -/
def one_tub (urls : List UrlParts) (delay : ℚ) (oracle : ℕ → IterOracle)
    (duration : ℚ) (use_session : Bool) : TubRun :=
  one_tubAux urls delay duration oracle
    (if use_session then some () else none) 1000 0 0 [] []

/-- `end_at` as computed by `one_user`: `end_at = min(street_len-3, 8);
if end_at < 1: end_at = 1` (Python subtraction, so over the integers). -/
def end_atZ (street_len : ℕ) : ℤ :=
  let e0 : ℤ := min ((street_len : ℤ) - 3) 8
  if e0 < 1 then 1 else e0

/-- State returned by a `one_user` call: the (shared) results list after the
call, the value the function returned (`i`, the final loop index; `none`
models the case where an exception propagated and no value was returned),
the wall clock at exit, the sleeps executed, and the raised flag. -/
structure UserRun where
  results : List RequestRecord
  ret : Option ℕ
  finish : ℚ
  sleeps : List ℚ
  raised : Bool
deriving DecidableEq, Repr

/-- The loop body of `one_user`, `for i in range(end_at)`.  Per iteration:
build `typed_url = begin + f"{num_str}&street={street_str[7:11+i]}"`,
`results.append({})`, `issue_request(session, typed_url, results[i], i)`
(note the index `i` is the local loop index into the shared list), then
`time.sleep(.3)`.  `iOpt` tracks the Python loop variable `i`. -/
def one_userAux (begin_ num_str street_str : String)
    (oracle : ℕ → IterOracle) :
    ℕ → ℕ → ℚ → List RequestRecord → List ℚ → Option ℕ → UserRun
  | 0, _, now, rs, sl, iOpt => ⟨rs, iOpt, now, sl, false⟩
  | fuel + 1, i, now, rs, sl, _ =>
    let o := oracle i
    let addr_portion :=
      num_str ++ "&street=" ++ ((street_str.drop 7).take (11 + i - 7))
    let typed_url := begin_ ++ addr_portion
    let rs1 := rs ++ [emptyRecord]
    match issue_request (some ()) typed_url now o.reqTime o.outcome with
    | .error _ => ⟨rs1, none, now + o.reqTime, sl, true⟩
    | .ok out =>
      let rs2 := rs1.set i (storeResult (rs1.getD i emptyRecord) out.record)
      one_userAux begin_ num_str street_str oracle fuel (i + 1)
        (now + o.reqTime + 3 / 10) rs2 (sl ++ [3 / 10]) (some i)

/-- `one_user(url, results)` of miload.py: simulate one user typing.  The
regular-expression parse of `url` into its `num` and `street` groups is
represented by taking the `UrlParts` directly; `begin = url[:44]`,
`num_str = f"num={num}"`, `street_str = f"street={street}"`.  A fresh
`requests.Session` is used for the whole keystroke sequence. -/
def one_user (u : UrlParts) (oracle : ℕ → IterOracle) (now : ℚ)
    (results : List RequestRecord) : UserRun :=
  let url := u.toUrl
  let begin_ := url.take 44
  let num_str := "num=" ++ u.num
  let street_str := "street=" ++ u.street
  let end_at := end_atZ u.street.length
  one_userAux begin_ num_str street_str oracle end_at.toNat 0 now results [] none

/-- Per-user nondeterminism inside `many_users`: the random URL draw for
the user and the oracle for the user's own request sequence. -/
structure UserOracle where
  urlIdx : ℕ
  reqs : ℕ → IterOracle

/-- State returned by one simulated-user worker (`many_users`): the shared
results list, the value appended to `user_count` (`i+1`; `none` models the
append being skipped because an exception propagated), the number of
user-iterations the loop executed, the wall clock at exit, the sleeps
executed, and the raised flag. -/
structure UsersRun where
  results : List RequestRecord
  users : Option ℕ
  iters : ℕ
  finish : ℚ
  sleeps : List ℚ
  raised : Bool

/-- The loop body of `many_users`, `for i in range(1000)`: pick a random
URL, run `one_user(url, results)`, `if time.time() - begin > duration:
break`, `time.sleep(delay)`; after the loop, `user_count.append(i+1)`.
Here `i` is the index of the next iteration, so when the fuel runs out the
loop has executed `i` iterations and Python's loop variable ended at
`i - 1`. -/
def many_usersAux (urls : List UrlParts) (delay duration : ℚ)
    (oracle : ℕ → UserOracle) :
    ℕ → ℕ → ℚ → List RequestRecord → List ℚ → UsersRun
  | 0, i, now, rs, sl => ⟨rs, some i, i, now, sl, false⟩
  | fuel + 1, i, now, rs, sl =>
    let o := oracle i
    let u := urls.getD (o.urlIdx % urls.length) ⟨"", "", ""⟩
    let urun := one_user u o.reqs now rs
    if urun.raised then
      ⟨urun.results, none, i + 1, urun.finish, sl ++ urun.sleeps, true⟩
    else if urun.finish > duration then
      ⟨urun.results, some (i + 1), i + 1, urun.finish, sl ++ urun.sleeps, false⟩
    else
      many_usersAux urls delay duration oracle fuel (i + 1)
        (urun.finish + delay) urun.results (sl ++ urun.sleeps ++ [delay])

/-- `many_users(urls, delay, results, user_count, duration)` of miload.py:
`begin = time.time(); if delay < 0: delay = 0`, then the loop. -/
def many_users (urls : List UrlParts) (delay : ℚ) (duration : ℚ)
    (oracle : ℕ → UserOracle) : UsersRun :=
  let delay1 := if delay < 0 then 0 else delay
  many_usersAux urls delay1 duration oracle 1000 0 0 [] []

/-- The per-worker delay computed by `soak` (and again by `main`):
`delay = num_threads/rate_goal - 0.04`. -/
def soakDelay (num_threads rate_goal : ℚ) : ℚ :=
  num_threads / rate_goal - 1 / 25

/-- `results = list(itertools.chain(*results_list_list))` in `soak`: the
concatenation of the per-worker result buffers. -/
def chainBuffers (results_list_list : List (List RequestRecord)) :
    List RequestRecord :=
  results_list_list.flatten

/-- The nondeterminism of a whole soak run: one request oracle per
`one_tub` thread and one user oracle per `many_users` thread. -/
structure SoakOracle where
  tub : ℕ → ℕ → IterOracle
  users : ℕ → ℕ → UserOracle

/-- `soak(num_threads, urls, rate_goal, duration, use_session, user)` of
miload.py: one private buffer per thread, `delay = num_threads/rate_goal -
0.04`, run `one_tub` (or `many_users`) per thread, then chain the buffers
and total the user counts.  Thread start staggering and the pool's
wall-clock measurement are abstracted away (each worker's clock starts at
its own zero); the function returns (merged results, total_users). -/
def soak (num_threads : ℕ) (urls : List UrlParts) (rate_goal duration : ℚ)
    (use_session user : Bool) (oracle : SoakOracle) :
    List RequestRecord × ℕ :=
  let delay := soakDelay (num_threads : ℚ) rate_goal
  if user = false then
    let runs := (List.range num_threads).map
      (fun i => one_tub urls delay (oracle.tub i) duration use_session)
    (chainBuffers (runs.map TubRun.records), 0)
  else
    let runs := (List.range num_threads).map
      (fun i => many_users urls delay duration (oracle.users i))
    (chainBuffers (runs.map UsersRun.results),
     (runs.map (fun r => r.users.getD 0)).sum)

/-- Sort key used to model `results_df.sort_values(by='start')`: records
without a `start` value (aborted requests) have key `⊤`, matching pandas
placing NaN keys last. -/
def startKey (r : RequestRecord) : WithTop ℚ :=
  match r.start with
  | none => ⊤
  | some x => (x : WithTop ℚ)

/-- The order `sort_values(by='start')` establishes: non-decreasing in
`startKey`. -/
def startLe (a b : RequestRecord) : Prop :=
  startKey a ≤ startKey b

instance : DecidableRel startLe :=
  fun a b => inferInstanceAs (Decidable (startKey a ≤ startKey b))

instance : IsTotal RequestRecord startLe :=
  ⟨fun a b => le_total (startKey a) (startKey b)⟩

instance : IsTrans RequestRecord startLe :=
  ⟨fun _ _ _ h h2 => le_trans h h2⟩

/-- `results_df.sort_values(by='start')`.  The DataFrame built from a list
of dicts has a `start` column exactly when at least one dict has the key;
otherwise pandas raises `KeyError`.  The sort itself is modelled by a
comparison sort on `startKey` (pandas sorts non-decreasingly with NaN keys
last). -/
def sort_values_start (records : List RequestRecord) :
    Except String (List RequestRecord) :=
  if records.any (fun r => r.start.isSome) then
    .ok (List.insertionSort startLe records)
  else
    .error "KeyError"

/-- `results_df[col]` for a numeric column: raises `KeyError` when no
record has the key, otherwise the column with NaN (`none`) for missing
entries. -/
def dfColumn (records : List RequestRecord)
    (get : RequestRecord → Option ℚ) : Except String (List (Option ℚ)) :=
  if records.any (fun r => (get r).isSome) then
    .ok (records.map get)
  else
    .error "KeyError"

/-- `Series.mean()`: the mean of the non-NaN entries, NaN (`none`) when
there are none (pandas skips NaN by default). -/
def colMean (col : List (Option ℚ)) : Option ℚ :=
  let vals := col.filterMap id
  if vals.length = 0 then none else some (vals.sum / vals.length)

/-- The result-aggregation tail of `main` (lines 305-309): build the
DataFrame, `sort_values(by='start')` (the `to_csv` write is the excluded
persistence collaborator), then `avg_time = results_df['elapsed'].mean()`.
Returns the sorted export and the mean elapsed time (`none` = NaN), or the
`KeyError` pandas raises. -/
def mainStats (results : List RequestRecord) :
    Except String (List RequestRecord × Option ℚ) := do
  let sorted ← sort_values_start results
  let elapsedCol ← dfColumn results RequestRecord.elapsed
  let avg_time := colMean elapsedCol
  return (sorted, avg_time)

/-- The per-process statistics message `main` puts on its queue:
`{'result_count': len(results_df), 'elapsed': all_elapsed,
'user_rate': user_rate}`. -/
structure ProcessSummary where
  result_count : ℕ
  elapsed : ℚ
  user_rate : ℚ
deriving DecidableEq, Repr

instance : Inhabited ProcessSummary := ⟨⟨0, 0, 0⟩⟩

/-- The collection loop of `start_procs`: `for q in queues:
stats.append(q.get())`.  `q.get()` is a blocking receive with no timeout:
if process `q` never sends (`d q = none`) the coordinator waits forever,
modelled as the whole collection being `none`. -/
def collectSummaries (d : ℕ → Option ProcessSummary) :
    List ℕ → Option (List ProcessSummary)
  | [] => some []
  | q :: qs =>
    match d q with
    | none => none
    | some s =>
      match collectSummaries d qs with
      | none => none
      | some rest => some (s :: rest)

/-- The aggregation in `start_procs`: `total_results += s['result_count']`,
`elapsed_sum += s['elapsed']`, `user_rate_sum += s['user_rate']`, then
`elapsed = elapsed_sum / len(stats)` (a `ZeroDivisionError`, modelled as
`none`, when `stats` is empty). -/
def aggregateStats (stats : List ProcessSummary) : Option (ℕ × ℚ × ℚ) :=
  let total_results := stats.foldl (fun acc s => acc + s.result_count) 0
  let elapsed_sum := stats.foldl (fun acc s => acc + s.elapsed) 0
  let user_rate_sum := stats.foldl (fun acc s => acc + s.user_rate) 0
  if stats.length = 0 then none
  else some (total_results, elapsed_sum / (stats.length : ℚ), user_rate_sum)

/-- `start_procs(args, '')` of miload.py, at the summary level: spawn
`processes` processes (process `p`'s eventual summary message is `d p`,
`none` if it never reports), block on one `q.get()` per queue, then
aggregate.  `none` means the run stalls (or, for zero processes, dies on
the division) and no run summary is ever emitted. -/
def start_procs (processes : ℕ) (d : ℕ → Option ProcessSummary) :
    Option (ℕ × ℚ × ℚ) :=
  match collectSummaries d (List.range processes) with
  | none => none
  | some stats => aggregateStats stats

/-- Fills the pre-allocated flood result slots: slot `i` is handed to
thread `i`, which may overwrite it. -/
def fillSlots (f : ℕ → RequestRecord → RequestRecord) :
    ℕ → List RequestRecord → List RequestRecord
  | _, [] => []
  | i, slot :: rest => f i slot :: fillSlots f (i + 1) rest

/-- What flood thread `i` leaves in its pre-allocated dict: it runs
`issue_request(None, url, results[i], i)` once, starting at the staggered
time `i * 0.009`.  On a connection abort `issue_request` returns without
mutating, and on an uncaught exception the thread dies, so in both cases
the slot keeps its previous value. -/
def floodThread (urls : List UrlParts) (oracle : ℕ → IterOracle) (i : ℕ)
    (slot : RequestRecord) : RequestRecord :=
  let o := oracle i
  let url := pickUrl urls o.urlIdx
  match issue_request none url ((i : ℚ) * (9 / 1000)) o.reqTime o.outcome with
  | .error _ => slot
  | .ok out => storeResult slot out.record

/-- `flood(num_threads, urls)` of miload.py: pre-allocate one empty dict
per thread (`results.append({})` before any thread starts), then each
thread issues exactly one request into its own slot.  The pool's wall-clock
measurement is not modelled; the function returns the results list. -/
def flood (num_threads : ℕ) (urls : List UrlParts)
    (oracle : ℕ → IterOracle) : List RequestRecord :=
  let results := List.replicate num_threads emptyRecord
  fillSlots (floodThread urls oracle) 0 results

/-! ### Concrete fixtures used by counterexamples and witnesses -/

/-- A one-entry address pool (the first default URL of miload.py). -/
def urlsEx : List UrlParts :=
  [⟨"https://address.mivoter.org/index.php?max=5&", "1", "Main St"⟩]

/-- An oracle where every request succeeds and takes one second. -/
def cexOracle : ℕ → IterOracle := fun _ => ⟨0, 1, .success 1 0⟩

/-- An oracle where every request hits a connection error after one second. -/
def abortOracle : ℕ → IterOracle := fun _ => ⟨0, 1, .connError⟩

/-! ### Lemmas about the soak worker loop `one_tub` -/

theorem one_tubAux_records_le (urls : List UrlParts) (delay duration : ℚ)
    (oracle : ℕ → IterOracle) (session : Option Unit) :
    ∀ (fuel i : ℕ) (now : ℚ) (acc : List RequestRecord) (sl : List ℚ),
      (one_tubAux urls delay duration oracle session fuel i now acc
        sl).records.length ≤ acc.length + fuel := by
  intro fuel
  induction fuel with
  | zero => intro i now acc sl; simp [one_tubAux]
  | succ fuel ih =>
    intro i now acc sl
    simp only [one_tubAux]
    split
    · simp
    · split
      · exact le_trans (ih _ _ _ _) (by simp; omega)
      · split
        · simp
        · exact le_trans (ih _ _ _ _) (by simp; omega)

theorem one_tubAux_records_mono (urls : List UrlParts) (delay duration : ℚ)
    (oracle : ℕ → IterOracle) (session : Option Unit) :
    ∀ (fuel i : ℕ) (now : ℚ) (acc : List RequestRecord) (sl : List ℚ),
      acc.length ≤ (one_tubAux urls delay duration oracle session fuel i now
        acc sl).records.length := by
  intro fuel
  induction fuel with
  | zero => intro i now acc sl; simp [one_tubAux]
  | succ fuel ih =>
    intro i now acc sl
    simp only [one_tubAux]
    split
    · simp
    · split
      · exact le_trans (by simp) (ih _ _ _ _)
      · split
        · simp
        · exact le_trans (by simp) (ih _ _ _ _)

theorem one_tubAux_records_pos (urls : List UrlParts) (delay duration : ℚ)
    (oracle : ℕ → IterOracle) (session : Option Unit)
    (fuel i : ℕ) (now : ℚ) (acc : List RequestRecord) (sl : List ℚ) :
    acc.length + 1 ≤ (one_tubAux urls delay duration oracle session (fuel + 1)
      i now acc sl).records.length := by
  simp only [one_tubAux]
  split
  · simp
  · split
    · exact le_trans (by simp)
        (one_tubAux_records_mono urls delay duration oracle session _ _ _ _ _)
    · split
      · simp
      · exact le_trans (by simp)
          (one_tubAux_records_mono urls delay duration oracle session _ _ _ _ _)

theorem one_tubAux_finish_le (urls : List UrlParts) (delay duration R : ℚ)
    (oracle : ℕ → IterOracle) (session : Option Unit)
    (hd : 0 ≤ delay)
    (hR : ∀ j, 0 ≤ (oracle j).reqTime ∧ (oracle j).reqTime ≤ R) :
    ∀ (fuel i : ℕ) (now : ℚ) (acc : List RequestRecord) (sl : List ℚ),
      now ≤ duration + delay →
      (one_tubAux urls delay duration oracle session fuel i now acc
        sl).finish ≤ duration + delay + R := by
  have hR0 : 0 ≤ R := le_trans (hR 0).1 (hR 0).2
  intro fuel
  induction fuel with
  | zero => intro i now acc sl hnow; simp only [one_tubAux]; linarith
  | succ fuel ih =>
    intro i now acc sl hnow
    simp only [one_tubAux]
    split
    · have := hR i
      simp only
      linarith [(hR i).1, (hR i).2]
    · split
      · exact absurd (by assumption) (not_lt.mpr hd)
      · split
        · simp only
          linarith [(hR i).2]
        · apply ih
          have hle : now + (oracle i).reqTime ≤ duration := le_of_not_lt
            (by assumption)
          linarith

theorem issue_request_ok (session : Option Unit) (url : String)
    (start reqTime : ℚ) {outcome : ReqOutcome}
    (h : outcome ≠ ReqOutcome.otherExn) :
    ∃ out, issue_request session url start reqTime outcome = .ok out := by
  cases session <;> cases outcome <;> first
    | exact absurd rfl h
    | exact ⟨_, rfl⟩

theorem one_tubAux_neg_records (urls : List UrlParts) (delay duration : ℚ)
    (oracle : ℕ → IterOracle) (session : Option Unit)
    (hd : delay < 0) (hok : ∀ j, (oracle j).outcome ≠ ReqOutcome.otherExn) :
    ∀ (fuel i : ℕ) (now : ℚ) (acc : List RequestRecord) (sl : List ℚ),
      (one_tubAux urls delay duration oracle session fuel i now acc
        sl).records.length = acc.length + fuel := by
  intro fuel
  induction fuel with
  | zero => intro i now acc sl; simp [one_tubAux]
  | succ fuel ih =>
    intro i now acc sl
    obtain ⟨out, hout⟩ := issue_request_ok session
      (pickUrl urls (oracle i).urlIdx) now (oracle i).reqTime (hok i)
    simp only [one_tubAux, hout]
    rw [if_pos hd, ih]
    simp
    omega

theorem one_tubAux_cex_finish :
    ∀ (fuel i : ℕ) (now : ℚ) (acc : List RequestRecord) (sl : List ℚ),
      (one_tubAux urlsEx (-1) 1 cexOracle none fuel i now acc
        sl).finish = now + fuel := by
  intro fuel
  induction fuel with
  | zero => intro i now acc sl; simp [one_tubAux]
  | succ fuel ih =>
    intro i now acc sl
    simp only [one_tubAux, cexOracle, issue_request]
    rw [if_pos (by norm_num : (-1 : ℚ) < 0), ih]
    push_cast
    ring

theorem one_tubAux_sleeps_nonneg (urls : List UrlParts)
    (delay duration : ℚ) (oracle : ℕ → IterOracle) (session : Option Unit) :
    ∀ (fuel i : ℕ) (now : ℚ) (acc : List RequestRecord) (sl : List ℚ),
      (∀ s ∈ sl, 0 ≤ s) →
      ∀ s ∈ (one_tubAux urls delay duration oracle session fuel i now acc
        sl).sleeps, 0 ≤ s := by
  intro fuel
  induction fuel with
  | zero => intro i now acc sl hsl; simpa [one_tubAux] using hsl
  | succ fuel ih =>
    intro i now acc sl hsl
    simp only [one_tubAux]
    split
    · exact hsl
    · split
      · exact ih _ _ _ _ hsl
      · split
        · exact hsl
        · refine ih _ _ _ _ ?_
          intro s hs
          rcases List.mem_append.mp hs with h | h
          · exact hsl s h
          · have hd : ¬ delay < 0 := by assumption
            simp only [List.mem_singleton] at h
            subst h
            exact le_of_not_lt hd

theorem one_tubAux_sleeps_neg (urls : List UrlParts) (delay duration : ℚ)
    (oracle : ℕ → IterOracle) (session : Option Unit) (hd : delay < 0) :
    ∀ (fuel i : ℕ) (now : ℚ) (acc : List RequestRecord) (sl : List ℚ),
      (one_tubAux urls delay duration oracle session fuel i now acc
        sl).sleeps = sl := by
  intro fuel
  induction fuel with
  | zero => intro i now acc sl; simp [one_tubAux]
  | succ fuel ih =>
    intro i now acc sl
    simp only [one_tubAux]
    split
    · rfl
    · rw [if_pos hd, ih]

/-! ### Claim C1 -/

/-- C1 counterexample: the claim says the progress marker is a single
character, but on a session abort `issue_request` prints `'As'`, which has
two characters. -/
theorem C1_session_abort_marker_two_chars :
    issue_request (some ()) "url" 0 0 ReqOutcome.connError
      = .ok { printed := "As", record := none } ∧
    ("As".length = 1 → False) :=
  ⟨rfl, by decide⟩

/-- C1 (amended): on a connection-level failure `issue_request` returns
normally (no exception escapes), leaves the caller's record empty — no
elapsed time, no match count —, and prints a short progress marker, `"A"`
for a no-session abort and `"As"` (two characters) for a session abort,
which distinguishes the two; and such an abort does not stop the caller's
loop (here: `one_tub` with an always-aborting oracle still runs all 1000
iterations of its loop, recording 1000 aborted requests). -/
theorem C1_connection_abort_behavior :
    (∀ (url : String) (start reqTime : ℚ),
      issue_request none url start reqTime ReqOutcome.connError
        = .ok { printed := "A", record := none }) ∧
    (∀ (url : String) (start reqTime : ℚ),
      issue_request (some ()) url start reqTime ReqOutcome.connError
        = .ok { printed := "As", record := none }) ∧
    "A" ≠ "As" ∧
    storeResult emptyRecord none = emptyRecord ∧
    emptyRecord.elapsed = none ∧ emptyRecord.num_matches = none ∧
    (one_tub urlsEx (-1) abortOracle 1 false).records.length = 1000 := by
  refine ⟨fun _ _ _ => rfl, fun _ _ _ => rfl, by decide, rfl, rfl, rfl, ?_⟩
  simpa [one_tub] using one_tubAux_neg_records urlsEx (-1) 1 abortOracle none
    (by norm_num) (fun j => by simp [abortOracle]) 1000 0 0 [] []

/-! ### Claim C2 -/

/-- C2 counterexample: with worker count 1 and rate goal high enough that
the computed delay is negative (here delay `-1`), duration `1`, and every
request succeeding in one second, the worker does NOT exit once the
duration has elapsed: it runs all 1000 iterations, and its buffer-level
elapsed time (1000) far exceeds the duration plus one request-plus-delay
interval (`1 + (1 + (-1)) = 1`). -/
theorem C2_negative_delay_ignores_duration :
    (one_tub urlsEx (-1) cexOracle 1 false).records.length = 1000 ∧
    (one_tub urlsEx (-1) cexOracle 1 false).finish = 1000 ∧
    ¬ ((one_tub urlsEx (-1) cexOracle 1 false).finish ≤ 1 + (1 + (-1))) := by
  have hlen := one_tubAux_neg_records urlsEx (-1) 1 cexOracle none
    (by norm_num) (fun j => by simp [cexOracle]) 1000 0 0 [] []
  have hfin := one_tubAux_cex_finish 1000 0 0 [] []
  refine ⟨by simpa [one_tub] using hlen, by simpa [one_tub] using hfin, ?_⟩
  have : (one_tub urlsEx (-1) cexOracle 1 false).finish = 1000 := by
    simpa [one_tub] using hfin
  rw [this]
  norm_num

/-- C2 (amended): in soak mode every worker issues at least one request,
whatever the computed delay.  When the computed delay is non-negative the
worker exits after finishing its current record once the duration has
elapsed, so its buffer-level elapsed time is at most the duration plus one
request-plus-delay interval (request cost bounded by `R`).  When the
computed delay is negative, however, `one_tub`'s `continue` skips the
duration check along with the sleep, and the worker runs to the
1000-iteration safety cap regardless of the duration. -/
theorem C2_soak_worker_duration_bound (urls : List UrlParts)
    (delay duration R : ℚ) (oracle : ℕ → IterOracle) (us : Bool)
    (hdur : 0 < duration) :
    1 ≤ (one_tub urls delay oracle duration us).records.length ∧
    (0 ≤ delay →
      (∀ j, 0 ≤ (oracle j).reqTime ∧ (oracle j).reqTime ≤ R) →
      (one_tub urls delay oracle duration us).finish
        ≤ duration + delay + R) ∧
    (delay < 0 →
      (∀ j, (oracle j).outcome ≠ ReqOutcome.otherExn) →
      (one_tub urls delay oracle duration us).records.length = 1000) := by
  refine ⟨?_, ?_, ?_⟩
  · simpa [one_tub] using one_tubAux_records_pos urls delay duration oracle
      (if us then some () else none) 999 0 0 [] []
  · intro hd hR
    exact one_tubAux_finish_le urls delay duration R oracle
      (if us then some () else none) hd hR 1000 0 0 [] [] (by linarith)
  · intro hd hok
    simpa [one_tub] using one_tubAux_neg_records urls delay duration oracle
      (if us then some () else none) hd hok 1000 0 0 [] []

/-- C2 witness: the amended theorem applied at worker delay 0, duration 1,
request-cost bound 1, with every request succeeding in one second. -/
theorem C2_soak_worker_duration_bound_witness :
    0 < (1 : ℚ) ∧
    (1 ≤ (one_tub urlsEx 0 cexOracle 1 false).records.length ∧
    (0 ≤ (0 : ℚ) →
      (∀ j, 0 ≤ (cexOracle j).reqTime ∧ (cexOracle j).reqTime ≤ 1) →
      (one_tub urlsEx 0 cexOracle 1 false).finish ≤ 1 + 0 + 1) ∧
    ((0 : ℚ) < 0 →
      (∀ j, (cexOracle j).outcome ≠ ReqOutcome.otherExn) →
      (one_tub urlsEx 0 cexOracle 1 false).records.length = 1000)) :=
  ⟨by norm_num,
   C2_soak_worker_duration_bound urlsEx 0 1 1 cexOracle false (by norm_num)⟩

/-! ### Lemmas about the user simulator `one_user` -/

theorem end_atZ_pos (n : ℕ) : 1 ≤ end_atZ n := by
  simp only [end_atZ]
  split <;> omega

theorem end_atZ_le_eight (n : ℕ) : end_atZ n ≤ 8 := by
  simp only [end_atZ]
  split <;> omega

theorem end_atZ_small (n : ℕ) (h : n ≤ 3) : end_atZ n = 1 := by
  simp only [end_atZ]
  split <;> omega

theorem end_atZ_large (n : ℕ) (h : 11 ≤ n) : end_atZ n = 8 := by
  simp only [end_atZ]
  split <;> omega

theorem one_userAux_ok (begin_ num_str street_str : String)
    (oracle : ℕ → IterOracle)
    (hok : ∀ j, (oracle j).outcome ≠ ReqOutcome.otherExn) :
    ∀ (fuel i : ℕ) (now : ℚ) (rs : List RequestRecord) (sl : List ℚ)
      (iOpt : Option ℕ),
      (one_userAux begin_ num_str street_str oracle fuel i now rs sl
        iOpt).raised = false ∧
      (one_userAux begin_ num_str street_str oracle fuel i now rs sl
        iOpt).results.length = rs.length + fuel ∧
      (one_userAux begin_ num_str street_str oracle fuel i now rs sl
        iOpt).ret = (if fuel = 0 then iOpt else some (i + fuel - 1)) := by
  intro fuel
  induction fuel with
  | zero => intro i now rs sl iOpt; simp [one_userAux]
  | succ fuel ih =>
    intro i now rs sl iOpt
    obtain ⟨out, hout⟩ := issue_request_ok (some ())
      (begin_ ++ (num_str ++ "&street=" ++
        ((street_str.drop 7).take (11 + i - 7))))
      now (oracle i).reqTime (hok i)
    simp only [one_userAux, hout]
    obtain ⟨h1, h2, h3⟩ := ih (i + 1)
      (now + (oracle i).reqTime + 3 / 10)
      (((rs ++ [emptyRecord]).set i
        (storeResult ((rs ++ [emptyRecord]).getD i emptyRecord) out.record)))
      (sl ++ [3 / 10]) (some i)
    refine ⟨h1, ?_, ?_⟩
    · rw [h2]
      simp
      omega
    · rw [h3]
      cases fuel with
      | zero => simp
      | succ fuel =>
        simp only [if_neg (Nat.succ_ne_zero _)]
        congr 1
        omega

theorem one_userAux_results_le (begin_ num_str street_str : String)
    (oracle : ℕ → IterOracle) :
    ∀ (fuel i : ℕ) (now : ℚ) (rs : List RequestRecord) (sl : List ℚ)
      (iOpt : Option ℕ),
      (one_userAux begin_ num_str street_str oracle fuel i now rs sl
        iOpt).results.length ≤ rs.length + fuel := by
  intro fuel
  induction fuel with
  | zero => intro i now rs sl iOpt; simp [one_userAux]
  | succ fuel ih =>
    intro i now rs sl iOpt
    simp only [one_userAux]
    split
    · simp
    · refine le_trans (ih _ _ _ _ _) ?_
      simp
      omega

theorem one_userAux_sleeps_nonneg (begin_ num_str street_str : String)
    (oracle : ℕ → IterOracle) :
    ∀ (fuel i : ℕ) (now : ℚ) (rs : List RequestRecord) (sl : List ℚ)
      (iOpt : Option ℕ),
      (∀ s ∈ sl, 0 ≤ s) →
      ∀ s ∈ (one_userAux begin_ num_str street_str oracle fuel i now rs sl
        iOpt).sleeps, 0 ≤ s := by
  intro fuel
  induction fuel with
  | zero => intro i now rs sl iOpt hsl; simpa [one_userAux] using hsl
  | succ fuel ih =>
    intro i now rs sl iOpt hsl
    simp only [one_userAux]
    split
    · exact hsl
    · refine ih _ _ _ _ _ ?_
      intro s hs
      rcases List.mem_append.mp hs with h | h
      · exact hsl s h
      · simp only [List.mem_singleton] at h
        subst h
        norm_num

theorem one_user_results_le (u : UrlParts) (oracle : ℕ → IterOracle)
    (now : ℚ) (rs : List RequestRecord) :
    (one_user u oracle now rs).results.length ≤ rs.length + 8 := by
  simp only [one_user]
  refine le_trans (one_userAux_results_le _ _ _ _ _ _ _ _ _ _) ?_
  have h1 := end_atZ_pos u.street.length
  have h2 := end_atZ_le_eight u.street.length
  omega

theorem one_user_sleeps_nonneg (u : UrlParts) (oracle : ℕ → IterOracle)
    (now : ℚ) (rs : List RequestRecord) :
    ∀ s ∈ (one_user u oracle now rs).sleeps, 0 ≤ s := by
  simp only [one_user]
  exact one_userAux_sleeps_nonneg _ _ _ _ _ _ _ _ _ _ (by simp)

/-! ### Claim C3 -/

/-- A pool entry whose street has 7 characters (`"Main St"`). -/
def uMain : UrlParts :=
  ⟨"https://address.mivoter.org/index.php?max=5&", "1", "Main St"⟩

/-- A pool entry whose street has 3 characters. -/
def uAbc : UrlParts :=
  ⟨"https://address.mivoter.org/index.php?max=5&", "1", "abc"⟩

/-- C3 counterexample: on a query whose street portion has length 3, the
simulated user takes exactly one step (one request, one appended record),
but `one_user` returns `0` — the final zero-based loop index — not the step
count `1`. -/
theorem C3_return_is_not_step_count :
    (one_user uAbc cexOracle 0 []).results.length = 1 ∧
    (one_user uAbc cexOracle 0 []).ret = some 0 ∧
    ¬ ((0 : ℕ) = 1) := by
  have hok : ∀ j, (cexOracle j).outcome ≠ ReqOutcome.otherExn :=
    fun j => by simp [cexOracle]
  have hato : (end_atZ uAbc.street.length).toNat = 1 := by
    have : uAbc.street.length = 3 := by decide
    rw [this, end_atZ_small 3 (by norm_num)]
    rfl
  obtain ⟨h1, h2, h3⟩ := one_userAux_ok (uAbc.toUrl.take 44)
    ("num=" ++ uAbc.num) ("street=" ++ uAbc.street) cexOracle hok
    (end_atZ uAbc.street.length).toNat 0 0 [] [] none
  rw [hato] at h2 h3
  refine ⟨?_, ?_, by norm_num⟩
  · simp only [one_user, hato]
    simpa using h2
  · simp only [one_user, hato]
    simpa using h3

/-- C3 (amended): for every query, `one_user` issues one request per partial
string — `end_at` steps, where `end_at` is 1 when the street portion has at
most 3 characters, 8 when it has at least 11, and never less than 1 — but
its return value is the final zero-based loop index, that is `end_at - 1`
(0 and 7 in those two cases), not the step count itself.  (Requests are
assumed not to raise uncaught exceptions; a connection abort still counts
as a step.) -/
theorem C3_user_simulator_steps (u : UrlParts) (oracle : ℕ → IterOracle)
    (now : ℚ)
    (hok : ∀ j, (oracle j).outcome ≠ ReqOutcome.otherExn) :
    (one_user u oracle now []).raised = false ∧
    (one_user u oracle now []).results.length
      = (end_atZ u.street.length).toNat ∧
    (one_user u oracle now []).ret
      = some ((end_atZ u.street.length).toNat - 1) ∧
    1 ≤ (end_atZ u.street.length).toNat ∧
    (u.street.length ≤ 3 → (end_atZ u.street.length).toNat = 1) ∧
    (11 ≤ u.street.length → (end_atZ u.street.length).toNat = 8) := by
  have hpos : 1 ≤ (end_atZ u.street.length).toNat := by
    have := end_atZ_pos u.street.length
    omega
  obtain ⟨h1, h2, h3⟩ := one_userAux_ok (u.toUrl.take 44)
    ("num=" ++ u.num) ("street=" ++ u.street) oracle hok
    (end_atZ u.street.length).toNat 0 now [] [] none
  refine ⟨?_, ?_, ?_, hpos, ?_, ?_⟩
  · simpa only [one_user] using h1
  · simp only [one_user]
    simpa using h2
  · simp only [one_user]
    rw [h3, if_neg (by omega)]
    congr 1
    omega
  · intro h
    have := end_atZ_small u.street.length h
    omega
  · intro h
    have := end_atZ_large u.street.length h
    omega

/-- C3 witness: the amended theorem applied to the query `"Main St"`
(street length 7, hence 4 steps and return value 3) with every request
succeeding. -/
theorem C3_user_simulator_steps_witness :
    (∀ j, (cexOracle j).outcome ≠ ReqOutcome.otherExn) ∧
    ((one_user uMain cexOracle 0 []).raised = false ∧
     (one_user uMain cexOracle 0 []).results.length
       = (end_atZ uMain.street.length).toNat ∧
     (one_user uMain cexOracle 0 []).ret
       = some ((end_atZ uMain.street.length).toNat - 1) ∧
     1 ≤ (end_atZ uMain.street.length).toNat ∧
     (uMain.street.length ≤ 3 → (end_atZ uMain.street.length).toNat = 1) ∧
     (11 ≤ uMain.street.length → (end_atZ uMain.street.length).toNat = 8)) :=
  ⟨fun j => by simp [cexOracle],
   C3_user_simulator_steps uMain cexOracle 0 (fun j => by simp [cexOracle])⟩

/-! ### Claim C4 -/

/-- C4 (code bug): over an all-aborted result set (here two aborted
records) and over an empty result set, the aggregation tail of `main` does
not report a NaN mean — it raises a pandas `KeyError`, because a DataFrame
built from empty dicts has no `start` column for `sort_values(by='start')`
(nor an `elapsed` column for the mean). -/
theorem C4_all_aborted_aggregation_raises :
    mainStats [emptyRecord, emptyRecord] = .error "KeyError" ∧
    mainStats [] = .error "KeyError" :=
  ⟨rfl, rfl⟩

/-! ### Lemmas about the simulated-user worker loop `many_users` -/

theorem many_usersAux_iters_le (urls : List UrlParts) (delay duration : ℚ)
    (oracle : ℕ → UserOracle) :
    ∀ (fuel i : ℕ) (now : ℚ) (rs : List RequestRecord) (sl : List ℚ),
      (many_usersAux urls delay duration oracle fuel i now rs sl).iters
        ≤ i + fuel := by
  intro fuel
  induction fuel with
  | zero => intro i now rs sl; simp [many_usersAux]
  | succ fuel ih =>
    intro i now rs sl
    simp only [many_usersAux]
    split
    · simp only
      omega
    · split
      · simp only
        omega
      · exact le_trans (ih _ _ _ _) (by omega)

theorem many_usersAux_results_le (urls : List UrlParts)
    (delay duration : ℚ) (oracle : ℕ → UserOracle) :
    ∀ (fuel i : ℕ) (now : ℚ) (rs : List RequestRecord) (sl : List ℚ),
      (many_usersAux urls delay duration oracle fuel i now rs
        sl).results.length ≤ rs.length + 8 * fuel := by
  intro fuel
  induction fuel with
  | zero => intro i now rs sl; simp [many_usersAux]
  | succ fuel ih =>
    intro i now rs sl
    simp only [many_usersAux]
    split
    · refine le_trans (one_user_results_le _ _ _ _) ?_
      omega
    · split
      · refine le_trans (one_user_results_le _ _ _ _) ?_
        omega
      · refine le_trans (ih _ _ _ _) ?_
        have := one_user_results_le
          (urls.getD ((oracle i).urlIdx % urls.length) ⟨"", "", ""⟩)
          (oracle i).reqs now rs
        omega

theorem many_usersAux_sleeps_nonneg (urls : List UrlParts)
    (delay duration : ℚ) (oracle : ℕ → UserOracle) (hd : 0 ≤ delay) :
    ∀ (fuel i : ℕ) (now : ℚ) (rs : List RequestRecord) (sl : List ℚ),
      (∀ s ∈ sl, 0 ≤ s) →
      ∀ s ∈ (many_usersAux urls delay duration oracle fuel i now rs
        sl).sleeps, 0 ≤ s := by
  intro fuel
  induction fuel with
  | zero => intro i now rs sl hsl; simpa [many_usersAux] using hsl
  | succ fuel ih =>
    intro i now rs sl hsl
    simp only [many_usersAux]
    split
    · intro s hs
      rcases List.mem_append.mp hs with h | h
      · exact hsl s h
      · exact one_user_sleeps_nonneg _ _ _ _ s h
    · split
      · intro s hs
        rcases List.mem_append.mp hs with h | h
        · exact hsl s h
        · exact one_user_sleeps_nonneg _ _ _ _ s h
      · refine ih _ _ _ _ ?_
        intro s hs
        rcases List.mem_append.mp hs with h | h
        · rcases List.mem_append.mp h with h2 | h2
          · exact hsl s h2
          · exact one_user_sleeps_nonneg _ _ _ _ s h2
        · simp only [List.mem_singleton] at h
          subst h
          exact hd

/-! ### Claim C5 -/

/-- C5: the per-worker delay is computed as `W / R - 0.04`, and no worker
loop ever applies a negative sleep: every sleep a soak worker (`one_tub`)
or a simulated-user worker (`many_users`) actually executes is
non-negative, for every delay argument; and when the computed delay is
negative (for example one worker with rate goal 100, giving delay
`1/100 - 1/25 < 0`) the soak worker executes no sleep at all ("issue as
fast as possible"). -/
theorem C5_rate_delay_no_negative_sleep (W R delayAny duration duration2 : ℚ)
    (urls : List UrlParts) (toracle : ℕ → IterOracle) (us : Bool)
    (uoracle : ℕ → UserOracle) :
    soakDelay W R = W / R - 1 / 25 ∧
    ((one_tub urls delayAny toracle duration us).sleeps.all
      (fun s => decide (0 ≤ s))) = true ∧
    ((many_users urls delayAny duration2 uoracle).sleeps.all
      (fun s => decide (0 ≤ s))) = true ∧
    (one_tub urlsEx (soakDelay 1 100) cexOracle 1 false).sleeps = [] := by
  refine ⟨rfl, ?_, ?_, ?_⟩
  · rw [List.all_eq_true]
    intro s hs
    exact decide_eq_true
      (one_tubAux_sleeps_nonneg urls delayAny duration toracle
        (if us then some () else none) 1000 0 0 [] [] (by simp) s hs)
  · rw [List.all_eq_true]
    intro s hs
    have hd : 0 ≤ (if delayAny < 0 then 0 else delayAny) := by
      split
      · exact le_refl 0
      · exact le_of_not_lt (by assumption)
    exact decide_eq_true
      (many_usersAux_sleeps_nonneg urls (if delayAny < 0 then 0 else delayAny)
        duration2 uoracle hd 1000 0 0 [] [] (by simp) s hs)
  · have hd : soakDelay 1 100 < 0 := by norm_num [soakDelay]
    simpa [one_tub] using one_tubAux_sleeps_neg urlsEx (soakDelay 1 100) 1
      cexOracle none hd 1000 0 0 [] []

/-! ### Claim C6 -/

/-- C6: every soak-mode worker loop is capped at 1000 iterations, whatever
the delay, duration or request behaviour: a `one_tub` worker appends at
most 1000 records, and a `many_users` worker runs at most 1000
user-iterations (hence at most `8 * 1000` records, since each simulated
user issues at most 8 requests). -/
theorem C6_worker_iteration_cap (urls : List UrlParts)
    (delay duration delay2 duration2 : ℚ) (toracle : ℕ → IterOracle)
    (us : Bool) (uoracle : ℕ → UserOracle) :
    (one_tub urls delay toracle duration us).records.length ≤ 1000 ∧
    (many_users urls delay2 duration2 uoracle).iters ≤ 1000 ∧
    (many_users urls delay2 duration2 uoracle).results.length ≤ 8 * 1000 := by
  refine ⟨?_, ?_, ?_⟩
  · simpa [one_tub] using one_tubAux_records_le urls delay duration toracle
      (if us then some () else none) 1000 0 0 [] []
  · simpa [many_users] using many_usersAux_iters_le urls
      (if delay2 < 0 then 0 else delay2) duration2 uoracle 1000 0 0 [] []
  · simpa [many_users] using many_usersAux_results_le urls
      (if delay2 < 0 then 0 else delay2) duration2 uoracle 1000 0 0 [] []

/-! ### Claim C7 -/

/-- Two successful records with out-of-order start times, for the C7
witness. -/
def recLate : RequestRecord := successRecord "ua" 5 1 2 3

/-- A successful record starting at time 0, for the C7 witness. -/
def recEarly : RequestRecord := successRecord "ub" 0 1 2 3

/-- C7: `soak` merges the per-worker buffers by concatenation, and for
buffers of sizes n1..nK whose merge contains at least one record with a
start time (so that the DataFrame has a `start` column), the export step
`sort_values(by='start')` succeeds and yields exactly n1+...+nK records,
sorted non-decreasingly by start time (records without a start time — NaN
keys — ordered last). -/
theorem C7_merge_lengths_sorted (buffers : List (List RequestRecord))
    (nt : ℕ) (urls : List UrlParts) (rg dur : ℚ) (us : Bool)
    (so : SoakOracle)
    (h : (chainBuffers buffers).any (fun r => r.start.isSome) = true) :
    (soak nt urls rg dur us false so).1
      = chainBuffers ((List.range nt).map
          (fun i => (one_tub urls (soakDelay (nt : ℚ) rg) (so.tub i) dur
            us).records)) ∧
    sort_values_start (chainBuffers buffers)
      = .ok (List.insertionSort startLe (chainBuffers buffers)) ∧
    (List.insertionSort startLe (chainBuffers buffers)).length
      = (buffers.map List.length).sum ∧
    List.Sorted startLe
      (List.insertionSort startLe (chainBuffers buffers)) := by
  refine ⟨?_, ?_, ?_, ?_⟩
  · simp [soak, List.map_map]
    rfl
  · rw [sort_values_start, if_pos h]
  · rw [List.length_insertionSort]
    simp [chainBuffers]
  · exact List.sorted_insertionSort startLe _

/-- C7 witness: two one-record worker buffers with out-of-order start
times merge to a two-record, sorted export. -/
theorem C7_merge_lengths_sorted_witness :
    ((chainBuffers [[recLate], [recEarly]]).any
      (fun r => r.start.isSome) = true) ∧
    ((soak 0 [] 1 1 false false ⟨fun _ _ => ⟨0, 0, .connError⟩,
        fun _ _ => ⟨0, fun _ => ⟨0, 0, .connError⟩⟩⟩).1
      = chainBuffers ((List.range 0).map
          (fun i => (one_tub [] (soakDelay (0 : ℚ) 1)
            ((⟨fun _ _ => ⟨0, 0, .connError⟩,
              fun _ _ => ⟨0, fun _ => ⟨0, 0, .connError⟩⟩⟩ : SoakOracle).tub i)
            1 false).records)) ∧
    sort_values_start (chainBuffers [[recLate], [recEarly]])
      = .ok (List.insertionSort startLe
          (chainBuffers [[recLate], [recEarly]])) ∧
    (List.insertionSort startLe (chainBuffers [[recLate], [recEarly]])).length
      = ([[recLate], [recEarly]].map List.length).sum ∧
    List.Sorted startLe
      (List.insertionSort startLe (chainBuffers [[recLate], [recEarly]]))) :=
  ⟨by rfl,
   C7_merge_lengths_sorted [[recLate], [recEarly]] 0 [] 1 1 false
     ⟨fun _ _ => ⟨0, 0, .connError⟩,
      fun _ _ => ⟨0, fun _ => ⟨0, 0, .connError⟩⟩⟩ (by rfl)⟩

/-! ### Lemmas about the process-fanout coordinator -/

theorem foldl_add_map {M : Type} [AddMonoid M] {α : Type} (g : α → M) :
    ∀ (l : List α) (a : M),
      l.foldl (fun acc x => acc + g x) a = a + (l.map g).sum := by
  intro l
  induction l with
  | nil => intro a; simp
  | cons x xs ih => intro a; simp [ih, add_assoc]

theorem collectSummaries_map (f : ℕ → ProcessSummary) :
    ∀ l : List ℕ,
      collectSummaries (fun p => some (f p)) l = some (l.map f) := by
  intro l
  induction l with
  | nil => rfl
  | cons q qs ih => simp [collectSummaries, ih]

theorem collectSummaries_stall (d : ℕ → Option ProcessSummary) (p : ℕ)
    (hd : d p = none) :
    ∀ l : List ℕ, p ∈ l → collectSummaries d l = none := by
  intro l
  induction l with
  | nil => intro h; simp at h
  | cons q qs ih =>
    intro h
    simp only [collectSummaries]
    rcases List.mem_cons.mp h with rfl | hmem
    · rw [hd]
    · cases hq : d q
      · rfl
      · rw [ih hmem]

theorem collectSummaries_some (d : ℕ → Option ProcessSummary) :
    ∀ (l : List ℕ) (stats : List ProcessSummary),
      collectSummaries d l = some stats →
      stats.length = l.length ∧
      ∀ k, k < l.length → d (l.getD k 0) = some (stats.getD k default) := by
  intro l
  induction l with
  | nil =>
    intro stats h
    simp only [collectSummaries, Option.some_inj] at h
    subst h
    simp
  | cons q qs ih =>
    intro stats h
    simp only [collectSummaries] at h
    cases hq : d q with
    | none => rw [hq] at h; exact absurd h (by simp)
    | some s =>
      rw [hq] at h
      cases hr : collectSummaries d qs with
      | none => rw [hr] at h; exact absurd h (by simp)
      | some rest =>
        rw [hr] at h
        simp only [Option.some_inj] at h
        subst h
        obtain ⟨hl, hk⟩ := ih rest hr
        refine ⟨by simp [hl], ?_⟩
        intro k hklt
        cases k with
        | zero => simpa using hq
        | succ k =>
          simp only [List.getD_cons_succ]
          exact hk k (by simpa using hklt)

/-! ### Claim C8 -/

/-- C8: for every process count P >= 1, when every process reports a
summary, `start_procs` emits total results = the sum of the per-process
`result_count`, overall elapsed = the arithmetic mean of the per-process
`elapsed`, and total rate = the sum of the per-process `user_rate`. -/
theorem C8_fanout_aggregation (P : ℕ) (f : ℕ → ProcessSummary)
    (hP : 1 ≤ P) :
    start_procs P (fun p => some (f p))
      = some ((((List.range P).map f).map
                 (fun s => s.result_count)).sum,
              (((List.range P).map f).map (fun s => s.elapsed)).sum / (P : ℚ),
              (((List.range P).map f).map (fun s => s.user_rate)).sum) := by
  have hc := collectSummaries_map f (List.range P)
  simp only [start_procs, hc]
  simp only [aggregateStats, foldl_add_map]
  rw [if_neg (by simp; omega)]
  simp

/-- C8 witness: the aggregation theorem applied to two processes with
concrete summaries. -/
theorem C8_fanout_aggregation_witness :
    1 ≤ 2 ∧
    start_procs 2 (fun p => some ((fun q => (⟨q, 1, 2⟩ : ProcessSummary)) p))
      = some ((((List.range 2).map
                  (fun q => (⟨q, 1, 2⟩ : ProcessSummary))).map
                 (fun s => s.result_count)).sum,
              (((List.range 2).map
                  (fun q => (⟨q, 1, 2⟩ : ProcessSummary))).map
                 (fun s => s.elapsed)).sum / ((2 : ℕ) : ℚ),
              (((List.range 2).map
                  (fun q => (⟨q, 1, 2⟩ : ProcessSummary))).map
                 (fun s => s.user_rate)).sum) :=
  ⟨by norm_num,
   C8_fanout_aggregation 2 (fun q => ⟨q, 1, 2⟩) (by norm_num)⟩

/-! ### Claim C9 -/

/-- C9: the coordinator never computes or emits the run summary before it
has received exactly one `ProcessSummary` from every spawned process, and
it applies no timeout: if some process never reports, `start_procs`
stalls and emits nothing; and whenever the collection loop completes, it
has collected exactly one summary per spawned process — process p's own
message in slot p. -/
theorem C9_summary_needs_all_processes (P : ℕ)
    (d : ℕ → Option ProcessSummary) :
    ((∃ p, p < P ∧ d p = none) → start_procs P d = none) ∧
    (∀ stats, collectSummaries d (List.range P) = some stats →
      stats.length = P ∧
      ∀ p, p < P → d p = some (stats.getD p default)) := by
  constructor
  · rintro ⟨p, hp, hd⟩
    simp only [start_procs]
    rw [collectSummaries_stall d p hd (List.range P)
      (List.mem_range.mpr hp)]
  · intro stats h
    obtain ⟨hl, hk⟩ := collectSummaries_some d (List.range P) stats h
    refine ⟨by simpa using hl, ?_⟩
    intro p hp
    have hr := hk p (by simpa using hp)
    have : (List.range P).getD p 0 = p := by
      rw [List.getD_eq_getElem?_getD, List.getElem?_range hp]
      rfl
    rwa [this] at hr

/-- C9 witness: with two processes, a run where process 1 never reports
stalls with no summary, while a run where both report collects exactly
their two messages. -/
theorem C9_summary_needs_all_processes_witness :
    start_procs 2
      (fun p => if p = 1 then none else some (⟨p, 1, 2⟩ : ProcessSummary))
      = none ∧
    (([⟨0, 1, 2⟩, ⟨1, 1, 2⟩] : List ProcessSummary).length = 2 ∧
     ∀ p, p < 2 →
       (fun q => some ((⟨q, 1, 2⟩ : ProcessSummary))) p
         = some (([⟨0, 1, 2⟩, ⟨1, 1, 2⟩] :
             List ProcessSummary).getD p default)) :=
  ⟨(C9_summary_needs_all_processes 2
      (fun p => if p = 1 then none else some ⟨p, 1, 2⟩)).1
      ⟨1, by norm_num, rfl⟩,
   (C9_summary_needs_all_processes 2
      (fun q => some ⟨q, 1, 2⟩)).2 [⟨0, 1, 2⟩, ⟨1, 1, 2⟩] (by rfl)⟩

/-! ### Claim C10 -/

theorem fillSlots_length (f : ℕ → RequestRecord → RequestRecord) :
    ∀ (l : List RequestRecord) (i : ℕ), (fillSlots f i l).length = l.length := by
  intro l
  induction l with
  | nil => intro i; rfl
  | cons slot rest ih => intro i; simp [fillSlots, ih]

theorem fillSlots_getD (f : ℕ → RequestRecord → RequestRecord) :
    ∀ (l : List RequestRecord) (i k : ℕ) (dflt : RequestRecord),
      k < l.length →
      (fillSlots f i l).getD k dflt = f (i + k) (l.getD k dflt) := by
  intro l
  induction l with
  | nil => intro i k dflt h; simp at h
  | cons slot rest ih =>
    intro i k dflt h
    cases k with
    | zero => simp [fillSlots]
    | succ k =>
      simp only [fillSlots, List.getD_cons_succ]
      rw [ih (i + 1) k dflt (by simpa using h)]
      congr 1
      omega

/-- C10: in flood mode with W workers, the per-process result list contains
exactly W records whatever the request outcomes: one slot is pre-allocated
per worker, each worker issues exactly one request, and a worker whose
request hits a connection error leaves its pre-allocated record in place
(empty), so aborts never reduce the result count. -/
theorem C10_flood_slot_count (W : ℕ) (urls : List UrlParts)
    (oracle : ℕ → IterOracle) :
    (flood W urls oracle).length = W ∧
    (∀ i, i < W → (oracle i).outcome = ReqOutcome.connError →
      (flood W urls oracle).getD i emptyRecord = emptyRecord) := by
  constructor
  · simp [flood, fillSlots_length]
  · intro i hi hout
    simp only [flood]
    rw [fillSlots_getD _ _ 0 i emptyRecord (by simpa using hi)]
    have hrep : (List.replicate W emptyRecord).getD i emptyRecord
        = emptyRecord := by
      rw [List.getD_eq_getElem?_getD, List.getElem?_replicate]
      split <;> rfl
    rw [hrep]
    simp only [floodThread, zero_add, hout, issue_request]
    rfl

/-- C10 witness: two flood workers whose requests both abort still produce
a two-record result list, with the aborted slot left empty. -/
theorem C10_flood_slot_count_witness :
    (flood 2 urlsEx abortOracle).length = 2 ∧
    ((1 < 2 ∧ (abortOracle 1).outcome = ReqOutcome.connError) ∧
     (flood 2 urlsEx abortOracle).getD 1 emptyRecord = emptyRecord) :=
  ⟨(C10_flood_slot_count 2 urlsEx abortOracle).1,
   ⟨⟨by norm_num, rfl⟩,
    (C10_flood_slot_count 2 urlsEx abortOracle).2 1 (by norm_num) rfl⟩⟩
